import Mathlib

/-!
Shallow embedding of the beegfs-exporter program (`src/main.rs`).

The program supervises a `beegfs-ctl --serverstats` child process, parses its
stdout lines with the regex

  `\s+[0-9]+\s+([0-9]+)\s+([0-9]+)\s+([0-9]+)\s+([0-9]+)\s+([0-9]+)`

(unanchored leftmost search via `Regex::captures`), and forwards the five
captured integers to three prometheus counters and two gauges.  A supervision
loop restarts the child on every termination, with a crash counter checked
against a configured ceiling, and a ctrl-c handler SIGTERMs the last spawned
child.

Numeric fields are modelled as naturals: every captured field is a digit
string, which denotes a natural number (the Rust code stores them in `f64`
counters/gauges; the exact-arithmetic content of the spec's claims is modelled
with `Nat`).
-/

namespace BeeGfs

/-- The regex character class `[0-9]` (ASCII digits 0x30..0x39). -/
def isDig (c : Char) : Bool := 0x30 ≤ c.toNat && c.toNat ≤ 0x39

/-- The regex character class `\s` of the Rust regex crate: the Unicode
White_Space set (the regex is compiled with default Unicode semantics). -/
def isWs (c : Char) : Bool :=
  c.toNat = 0x20 || c.toNat = 0x09 || c.toNat = 0x0A || c.toNat = 0x0B ||
  c.toNat = 0x0C || c.toNat = 0x0D || c.toNat = 0x85 || c.toNat = 0xA0 ||
  c.toNat = 0x1680 || (0x2000 ≤ c.toNat && c.toNat ≤ 0x200A) ||
  c.toNat = 0x2028 || c.toNat = 0x2029 || c.toNat = 0x202F ||
  c.toNat = 0x205F || c.toNat = 0x3000

/-- Greedy `p+`: consume one-or-more characters satisfying `p` from the front,
returning the consumed run and the remainder; `none` if the first character
does not satisfy `p`.  For the metric regex, whose adjacent classes `\s` and
`[0-9]` are disjoint, maximal munch is exactly the regex's greedy semantics. -/
def takeWhile1 (p : Char → Bool) : List Char → Option (List Char × List Char)
  | [] => none
  | c :: cs => if p c then some (c :: cs.takeWhile p, cs.dropWhile p) else none

/-- The five capture groups of the metric regex, as raw digit strings. -/
structure Caps where
  g1 : List Char
  g2 : List Char
  g3 : List Char
  g4 : List Char
  g5 : List Char
deriving DecidableEq, Repr

/-- One `\s+([0-9]+)` atom of the metric regex: a greedy whitespace run, then
a greedy digit run (the returned first component). -/
def wsDig (cs : List Char) : Option (List Char × List Char) :=
  match takeWhile1 isWs cs with
  | none => none
  | some (_, r) => takeWhile1 isDig r

/-- Match the metric regex at the start of `cs`:
`\s+ [0-9]+ (\s+ ([0-9]+)){5}`, i.e. six `\s+[0-9]+` atoms of which the first
digit run is ignored and the remaining five are captured. -/
def matchHere (cs : List Char) : Option Caps :=
  match wsDig cs with
  | none => none
  | some (_, r0) =>
  match wsDig r0 with
  | none => none
  | some (g1, r1) =>
  match wsDig r1 with
  | none => none
  | some (g2, r2) =>
  match wsDig r2 with
  | none => none
  | some (g3, r3) =>
  match wsDig r3 with
  | none => none
  | some (g4, r4) =>
  match wsDig r4 with
  | none => none
  | some (g5, _) => some ⟨g1, g2, g3, g4, g5⟩

/-- Unanchored leftmost search, as `Regex::captures` performs: try every start
position from the left, first success wins. -/
def search : List Char → Option Caps
  | [] => none
  | c :: rest => (matchHere (c :: rest)).or (search rest)

/-- Numeric value of a digit string. -/
def digitsVal (ds : List Char) : Nat :=
  ds.foldl (fun a c => a * 10 + (c.toNat - 0x30)) 0

/-- Model of `str::parse` on a captured field: succeeds (with the denoted
natural) exactly on nonempty all-digit strings; on anything else the Rust
code's `.unwrap()` would panic. -/
def parseNum (ds : List Char) : Option Nat :=
  if !ds.isEmpty && ds.all isDig then some (digitsVal ds) else none

/-- One parsed sample: the five captured fields in capture order, as consumed
by `process_events` (captures 1..5 = write, read, requests, queue length,
busy percent). -/
structure Sample where
  write : Nat
  read : Nat
  reqs : Nat
  qlen : Nat
  busy : Nat
deriving DecidableEq, Repr

/-- Result of running the extractor on one line: no regex match (line
silently skipped), a parsed sample, or the panic of a failed
`parse::<f64>().unwrap()` on a captured field. -/
inductive ExtractResult
  | noMatch
  | sample (s : Sample)
  | panic
deriving DecidableEq, Repr

/-- The per-line extractor of `process_events`: regex search, then parse the
five captures. -/
def extract (line : String) : ExtractResult :=
  match search line.toList with
  | none => .noMatch
  | some caps =>
    match parseNum caps.g1, parseNum caps.g2, parseNum caps.g3,
          parseNum caps.g4, parseNum caps.g5 with
    | some w, some r, some q, some l, some b => .sample ⟨w, r, q, l, b⟩
    | _, _, _, _, _ => .panic

/-- The five registered metric handles: three counters and two gauges. -/
structure SinkState where
  write_kib : Nat
  read_kib : Nat
  requests : Nat
  queue_len : Nat
  busy : Nat
deriving DecidableEq, Repr

/-- Freshly registered metrics: prometheus counters and gauges start at 0. -/
def zeroSink : SinkState := ⟨0, 0, 0, 0, 0⟩

/-- The five sink updates performed on a matching line:
`inc_by` on the three counters, `set` on the two gauges. -/
def applySample (st : SinkState) (s : Sample) : SinkState :=
  ⟨st.write_kib + s.write, st.read_kib + s.read, st.requests + s.reqs,
   s.qlen, s.busy⟩

/-- Process one successfully read line: on a regex match forward the sample to
the sink, otherwise leave the sink untouched.  Also returns the list of
forwarded samples (one per match).  The `panic` case is proved unreachable
(`extract_no_panic` below); its branch mirrors the non-forwarding behaviour. -/
def processLine (st : SinkState) (line : String) : SinkState × List Sample :=
  match extract line with
  | .sample s => (applySample st s, [s])
  | .noMatch => (st, [])
  | .panic => (st, [])

/-- Process a list of successfully read lines in order, accumulating the
forwarded samples. -/
def processLines (st : SinkState) : List String → SinkState × List Sample
  | [] => (st, [])
  | l :: ls =>
    let p := processLine st l
    let rest := processLines p.1 ls
    (rest.1, p.2 ++ rest.2)

/-- One event delivered by `reader.lines()`: a successfully read line, or an
I/O read error. -/
inductive ReadEvent
  | ok (line : String)
  | err (msg : String)
deriving DecidableEq, Repr

/-- Observable outcome of `process_events` on one stream: final sink state,
samples forwarded to the sink, stderr diagnostics, and the function's returned
`Result` value. -/
structure StreamOut where
  sink : SinkState
  emitted : List Sample
  logs : List String
  result : Except String Unit

/-- `process_events`: read lines until the stream ends or a read error occurs;
a read error is logged to stderr and breaks the loop; the function returns
`Ok(())` in every case. -/
def processEvents (st : SinkState) : List ReadEvent → StreamOut
  | [] => ⟨st, [], [], .ok ()⟩
  | .ok line :: rest =>
    let p := processLine st line
    let r := processEvents p.1 rest
    ⟨r.sink, p.2 ++ r.emitted, r.logs, r.result⟩
  | .err e :: _ => ⟨st, [], ["Error reading line: " ++ e], .ok ()⟩

/-- Structured per-iteration errors of `start_monitoring`. -/
inductive SpawnError
  | configFileNotFound (path : String)
  | spawnFailed (msg : String)
deriving DecidableEq, Repr

/-- What a successful spawn provides to the iteration: the child's pid and the
read events its piped stdout will deliver. -/
structure ChildRun where
  pid : Nat
  events : List ReadEvent

/-- The fixed argument list of the monitored subprocess. -/
def baseArgs : List String :=
  ["beegfs-ctl", "--serverstats", "--nodetype=storage", "--history=1",
   "--logEnabled"]

/-- `start_monitoring`: build the argument list; if a config file is
configured but is not a file on disk, fail with the config error before the
subprocess is invoked; otherwise invoke the spawn primitive (modelled as an
oracle from the full argument list to a spawn result). -/
def start_monitoring (cfg : Option String) (isFile : String → Bool)
    (spawn : List String → Except String ChildRun) : Except SpawnError ChildRun :=
  match cfg with
  | some p =>
    if !isFile p then .error (.configFileNotFound p)
    else
      match spawn (baseArgs ++ ["--cfgFile=" ++ p]) with
      | .ok c => .ok c
      | .error e => .error (.spawnFailed e)
  | none =>
    match spawn baseArgs with
    | .ok c => .ok c
    | .error e => .error (.spawnFailed e)

/-- Externally visible actions of one supervision-loop iteration, in program
order. -/
inductive Action
  | setChildPid (pid : Nat)
  | forward (s : Sample)
  | logErr (msg : String)
  | logStreamFailure (msg : String)
  | logSpawnFailure (e : SpawnError)
  | waitChild
  | sleepBackoff
deriving DecidableEq, Repr

/-- Supervisor state: the loop's crash counter (`error_count`, an `i32`
modelled as `Int`), the mutex-shared `child_pid`, and the sink. -/
structure RunState where
  errorCount : Int
  childPid : Option Nat
  sink : SinkState

/-- State at loop entry: `error_count = 0`, `child_pid = None`, fresh sink. -/
def initState : RunState := ⟨0, none, zeroSink⟩

/-- The only failure `run` ever returns: the restart ceiling was breached
(the anyhow error carrying the configured limit). -/
inductive Failure
  | restartCeiling (limit : Int)
deriving DecidableEq, Repr

/-- One iteration of the supervision loop in `run`: attempt a spawn; on
success record the pid, stream the output, log a stream failure if
`process_events` returned an error, and reap the child; on spawn error log it.
Then increment `error_count` and give up if it exceeds the limit, otherwise
sleep the 1-second backoff. -/
def runIter (cfg : Option String) (isFile : String → Bool) (limit : Int)
    (st : RunState) (spawn : List String → Except String ChildRun) :
    RunState × List Action × Option Failure :=
  let step :=
    match start_monitoring cfg isFile spawn with
    | .ok c =>
      let so := processEvents st.sink c.events
      let streamActs :=
        match so.result with
        | .ok _ => []
        | .error e => [Action.logStreamFailure e]
      ({ st with childPid := some c.pid, sink := so.sink },
       Action.setChildPid c.pid :: (so.emitted.map Action.forward ++
         so.logs.map Action.logErr ++ streamActs ++ [Action.waitChild]))
    | .error e => (st, [Action.logSpawnFailure e])
  let st1 := { step.1 with errorCount := step.1.errorCount + 1 }
  if st1.errorCount > limit then (st1, step.2, some (.restartCeiling limit))
  else (st1, step.2 ++ [Action.sleepBackoff], none)

/-- The supervision loop, driven by one spawn oracle per iteration (the list
models what the environment would do on each successive spawn attempt).
Returns the state when the oracle list is exhausted while the loop is still
running, or the state at the first ceiling breach together with the failure. -/
def runLoop (cfg : Option String) (isFile : String → Bool) (limit : Int) :
    RunState → List (List String → Except String ChildRun) →
    RunState × Option Failure
  | st, [] => (st, none)
  | st, spawn :: rest =>
    let it := runIter cfg isFile limit st spawn
    match it.2.2 with
    | some f => (it.1, some f)
    | none => runLoop cfg isFile limit it.1 rest

/-- Pid recorded by the last successful spawn among the iterations, starting
from a given previous value; mirrors how `child_pid` is only ever overwritten
on successful spawns and never cleared. -/
def lastSpawnPid (cfg : Option String) (isFile : String → Bool) :
    List (List String → Except String ChildRun) → Option Nat → Option Nat
  | [], acc => acc
  | spawn :: rest, acc =>
    match start_monitoring cfg isFile spawn with
    | .ok c => lastSpawnPid cfg isFile rest (some c.pid)
    | .error _ => lastSpawnPid cfg isFile rest acc

/-- Observable actions of the ctrl-c handler. -/
inductive HandlerAction
  | printMsg (msg : String)
  | sigterm (pid : Nat)
  | exitProgram (code : Nat)
deriving DecidableEq, Repr

/-- The ctrl-c handler: under the `child_pid` lock, print the message; if a
pid is tracked, SIGTERM it and exit the process with status 1; otherwise do
nothing further. -/
def ctrlcHandler (childPid : Option Nat) : List HandlerAction :=
  match childPid with
  | some pid =>
    [.printMsg "Crtl + C killing subprocess", .sigterm pid, .exitProgram 1]
  | none => [.printMsg "Crtl + C killing subprocess"]

/-- Kind of a registered prometheus metric. -/
inductive MetricKind
  | counter
  | gauge
deriving DecidableEq, Repr

/-- One metric registration: name, help text, kind. -/
structure MetricReg where
  name : String
  help : String
  kind : MetricKind
deriving DecidableEq, Repr

/-- The five metrics registered in `BeeGfsExporter::new`, in program order. -/
def metricRegistrations : List MetricReg :=
  [⟨"beegfs__writen_bytes", "Number of bytes written to BeeGFS", .counter⟩,
   ⟨"beegfs__read_bytes", "Number of bytes read from BeeGFS", .counter⟩,
   ⟨"beegfs__request_total", "Number of requests to BeeGFS", .counter⟩,
   ⟨"beegfs__queue_len", "Length of the BeeGFS queue", .gauge⟩,
   ⟨"beegfs__busy_pct", "BeeGFS load in percent", .gauge⟩]

/-- The sample a line contributes, if any: `some` exactly when the extractor
matches the line. -/
def extractSample (line : String) : Option Sample :=
  match extract line with
  | .sample s => some s
  | _ => none

/-- The guarantee the regex gives about its captures: every capture group is a
nonempty all-digit string. -/
def capsDigitsOk (caps : Caps) : Prop :=
  (caps.g1 ≠ [] ∧ ∀ c ∈ caps.g1, isDig c = true) ∧
  (caps.g2 ≠ [] ∧ ∀ c ∈ caps.g2, isDig c = true) ∧
  (caps.g3 ≠ [] ∧ ∀ c ∈ caps.g3, isDig c = true) ∧
  (caps.g4 ≠ [] ∧ ∀ c ∈ caps.g4, isDig c = true) ∧
  (caps.g5 ≠ [] ∧ ∀ c ∈ caps.g5, isDig c = true)

/-- Number of whitespace-separated tokens of a line that are (nonempty)
decimal integers; used to make "fewer than six whitespace-separated integers"
precise in counterexamples. -/
def intTokenCount (cs : List Char) : Nat :=
  ((cs.splitOnP isWs).filter (fun t => !t.isEmpty && t.all isDig)).length

/-- Whether `name` matches the glob `*suffix`, i.e. ends with `suffix`. -/
def matchesSuffix (name sfx : String) : Bool :=
  sfx.toList.isSuffixOf name.toList

/-- Number of maximal digit runs in a character list, tracking whether the
previous character was a digit. -/
def digitRunsAux : Bool → List Char → Nat
  | _, [] => 0
  | inRun, c :: cs =>
    if isDig c then (if inRun then 0 else 1) + digitRunsAux true cs
    else digitRunsAux false cs

/-- Number of maximal digit runs in a character list. -/
def digitRuns (cs : List Char) : Nat := digitRunsAux false cs

end BeeGfs


namespace BeeGfs

/-! ### Character classes and greedy runs -/

lemma isDig_not_isWs {c : Char} (h : isDig c = true) : isWs c = false := by
  simp only [isDig, Bool.and_eq_true, decide_eq_true_eq] at h
  simp only [isWs, Bool.or_eq_false_iff, Bool.and_eq_false_iff,
    decide_eq_false_iff_not, Bool.not_eq_true]
  omega

lemma isWs_not_isDig {c : Char} (h : isWs c = true) : isDig c = false := by
  by_cases hd : isDig c = true
  · rw [isDig_not_isWs hd] at h
    exact absurd h (by simp)
  · simpa using hd

lemma takeWhile1_some {p : Char → Bool} {cs t r : List Char}
    (h : takeWhile1 p cs = some (t, r)) :
    t ≠ [] ∧ (∀ c ∈ t, p c = true) ∧ cs = t ++ r := by
  cases cs with
  | nil => simp [takeWhile1] at h
  | cons c cs =>
    by_cases hpc : p c = true
    · rw [takeWhile1, if_pos hpc] at h
      obtain ⟨ht, hr⟩ := Prod.mk.injEq .. ▸ Option.some.inj h
      subst ht; subst hr
      refine ⟨by simp, ?_, by simp [List.takeWhile_append_dropWhile]⟩
      intro x hx
      rcases List.mem_cons.mp hx with hx | hx
      · exact hx ▸ hpc
      · exact List.mem_takeWhile_imp hx
    · rw [takeWhile1, if_neg hpc] at h
      exact absurd h (by simp)

lemma takeWhile_dropWhile_append {p : Char → Bool} {a b : List Char}
    (ha : ∀ c ∈ a, p c = true) (hb : ∀ c, b.head? = some c → p c = false) :
    (a ++ b).takeWhile p = a ∧ (a ++ b).dropWhile p = b := by
  induction a with
  | nil =>
    cases b with
    | nil => simp
    | cons x b =>
      have hx := hb x rfl
      simp [List.takeWhile, List.dropWhile, hx]
  | cons x a ih =>
    have hx := ha x (by simp)
    have h2 := ih (fun c hc => ha c (by simp [hc]))
    constructor
    · rw [List.cons_append, List.takeWhile_cons, if_pos hx, h2.1]
    · rw [List.cons_append, List.dropWhile_cons, if_pos hx, h2.2]

lemma takeWhile1_append {p : Char → Bool} {a b : List Char}
    (hne : a ≠ []) (ha : ∀ c ∈ a, p c = true)
    (hb : ∀ c, b.head? = some c → p c = false) :
    takeWhile1 p (a ++ b) = some (a, b) := by
  cases a with
  | nil => exact absurd rfl hne
  | cons x a =>
    have hx := ha x (by simp)
    have h2 := takeWhile_dropWhile_append (p := p) (a := a) (b := b)
      (fun c hc => ha c (by simp [hc])) hb
    simp [List.cons_append, takeWhile1, hx, h2.1, h2.2]

lemma head_append_not_isWs {d rest : List Char} (hne : d ≠ [])
    (hd : ∀ c ∈ d, isDig c = true) :
    ∀ c, (d ++ rest).head? = some c → isWs c = false := by
  cases d with
  | nil => exact absurd rfl hne
  | cons x d =>
    intro c hc
    simp only [List.cons_append, List.head?_cons, Option.some.injEq] at hc
    exact hc ▸ isDig_not_isWs (hd x (by simp))

lemma head_append_not_isDig {w rest : List Char} (hne : w ≠ [])
    (hw : ∀ c ∈ w, isWs c = true) :
    ∀ c, (w ++ rest).head? = some c → isDig c = false := by
  cases w with
  | nil => exact absurd rfl hne
  | cons x w =>
    intro c hc
    simp only [List.cons_append, List.head?_cons, Option.some.injEq] at hc
    exact hc ▸ isWs_not_isDig (hw x (by simp))

end BeeGfs

namespace BeeGfs

/-! ### The regex on structured lines -/

lemma matchHere_structured
    {w0 w1 w2 w3 w4 w5 d0 d1 d2 d3 d4 d5 t : List Char}
    (hw0 : w0 ≠ []) (hw0a : ∀ c ∈ w0, isWs c = true)
    (hw1 : w1 ≠ []) (hw1a : ∀ c ∈ w1, isWs c = true)
    (hw2 : w2 ≠ []) (hw2a : ∀ c ∈ w2, isWs c = true)
    (hw3 : w3 ≠ []) (hw3a : ∀ c ∈ w3, isWs c = true)
    (hw4 : w4 ≠ []) (hw4a : ∀ c ∈ w4, isWs c = true)
    (hw5 : w5 ≠ []) (hw5a : ∀ c ∈ w5, isWs c = true)
    (hd0 : d0 ≠ []) (hd0a : ∀ c ∈ d0, isDig c = true)
    (hd1 : d1 ≠ []) (hd1a : ∀ c ∈ d1, isDig c = true)
    (hd2 : d2 ≠ []) (hd2a : ∀ c ∈ d2, isDig c = true)
    (hd3 : d3 ≠ []) (hd3a : ∀ c ∈ d3, isDig c = true)
    (hd4 : d4 ≠ []) (hd4a : ∀ c ∈ d4, isDig c = true)
    (hd5 : d5 ≠ []) (hd5a : ∀ c ∈ d5, isDig c = true)
    (ht : ∀ c, t.head? = some c → isDig c = false) :
    matchHere (w0 ++ (d0 ++ (w1 ++ (d1 ++ (w2 ++ (d2 ++ (w3 ++ (d3 ++
        (w4 ++ (d4 ++ (w5 ++ (d5 ++ t)))))))))))) = some ⟨d1, d2, d3, d4, d5⟩ := by
  have h0 : wsDig (w0 ++ (d0 ++ (w1 ++ (d1 ++ (w2 ++ (d2 ++ (w3 ++ (d3 ++
      (w4 ++ (d4 ++ (w5 ++ (d5 ++ t)))))))))))) =
      some (d0, w1 ++ (d1 ++ (w2 ++ (d2 ++ (w3 ++ (d3 ++
        (w4 ++ (d4 ++ (w5 ++ (d5 ++ t)))))))))) := by
    simp only [wsDig, takeWhile1_append (p := isWs) hw0 hw0a
      (head_append_not_isWs hd0 hd0a),
      takeWhile1_append (p := isDig) hd0 hd0a
        (head_append_not_isDig hw1 hw1a)]
  have h1 : wsDig (w1 ++ (d1 ++ (w2 ++ (d2 ++ (w3 ++ (d3 ++
      (w4 ++ (d4 ++ (w5 ++ (d5 ++ t)))))))))) =
      some (d1, w2 ++ (d2 ++ (w3 ++ (d3 ++ (w4 ++ (d4 ++
        (w5 ++ (d5 ++ t)))))))) := by
    simp only [wsDig, takeWhile1_append (p := isWs) hw1 hw1a
      (head_append_not_isWs hd1 hd1a),
      takeWhile1_append (p := isDig) hd1 hd1a
        (head_append_not_isDig hw2 hw2a)]
  have h2 : wsDig (w2 ++ (d2 ++ (w3 ++ (d3 ++ (w4 ++ (d4 ++
      (w5 ++ (d5 ++ t)))))))) =
      some (d2, w3 ++ (d3 ++ (w4 ++ (d4 ++ (w5 ++ (d5 ++ t)))))) := by
    simp only [wsDig, takeWhile1_append (p := isWs) hw2 hw2a
      (head_append_not_isWs hd2 hd2a),
      takeWhile1_append (p := isDig) hd2 hd2a
        (head_append_not_isDig hw3 hw3a)]
  have h3 : wsDig (w3 ++ (d3 ++ (w4 ++ (d4 ++ (w5 ++ (d5 ++ t)))))) =
      some (d3, w4 ++ (d4 ++ (w5 ++ (d5 ++ t)))) := by
    simp only [wsDig, takeWhile1_append (p := isWs) hw3 hw3a
      (head_append_not_isWs hd3 hd3a),
      takeWhile1_append (p := isDig) hd3 hd3a
        (head_append_not_isDig hw4 hw4a)]
  have h4 : wsDig (w4 ++ (d4 ++ (w5 ++ (d5 ++ t)))) =
      some (d4, w5 ++ (d5 ++ t)) := by
    simp only [wsDig, takeWhile1_append (p := isWs) hw4 hw4a
      (head_append_not_isWs hd4 hd4a),
      takeWhile1_append (p := isDig) hd4 hd4a
        (head_append_not_isDig hw5 hw5a)]
  have h5 : wsDig (w5 ++ (d5 ++ t)) = some (d5, t) := by
    simp only [wsDig, takeWhile1_append (p := isWs) hw5 hw5a
      (head_append_not_isWs hd5 hd5a),
      takeWhile1_append (p := isDig) hd5 hd5a ht]
  simp only [matchHere, h0, h1, h2, h3, h4, h5]

lemma search_of_matchHere {cs : List Char} {r : Caps} (hne : cs ≠ [])
    (h : matchHere cs = some r) : search cs = some r := by
  cases cs with
  | nil => exact absurd rfl hne
  | cons c rest =>
    rw [search, h, Option.or_some]

lemma parseNum_digits {d : List Char} (hne : d ≠ [])
    (hd : ∀ c ∈ d, isDig c = true) : parseNum d = some (digitsVal d) := by
  have h1 : d.isEmpty = false := by
    cases d with
    | nil => exact absurd rfl hne
    | cons x l => rfl
  have h2 : d.all isDig = true := List.all_eq_true.mpr hd
  simp [parseNum, h1, h2]

end BeeGfs

namespace BeeGfs

/-! ### Captures are digit runs; matches need six digit runs -/

lemma digitRunsAux_ws_run (r : List Char) :
    ∀ (t : List Char), (∀ c ∈ t, isWs c = true) → t ≠ [] →
      ∀ b, digitRunsAux b (t ++ r) = digitRunsAux false r
  | [], _, h, _ => absurd rfl h
  | x :: t, ht, _, b => by
    have hx : isDig x = false := isWs_not_isDig (ht x (by simp))
    simp only [List.cons_append, digitRunsAux, hx]
    by_cases hte : t = []
    · subst hte; simp
    · simpa using digitRunsAux_ws_run r t (fun c hc => ht c (by simp [hc])) hte false

lemma digitRunsAux_dig_run (r : List Char) :
    ∀ (t : List Char), (∀ c ∈ t, isDig c = true) → t ≠ [] →
      digitRunsAux false (t ++ r) = 1 + digitRunsAux true r ∧
      digitRunsAux true (t ++ r) = digitRunsAux true r
  | [], _, h => absurd rfl h
  | x :: t, ht, _ => by
    have hx : isDig x = true := ht x (by simp)
    by_cases hte : t = []
    · subst hte; simp [digitRunsAux, hx]
    · have ih := digitRunsAux_dig_run r t (fun c hc => ht c (by simp [hc])) hte
      constructor
      · simp [digitRunsAux, hx, ih.2]
      · simp [digitRunsAux, hx, ih.2]

lemma wsDig_some {cs g r : List Char} (h : wsDig cs = some (g, r)) :
    g ≠ [] ∧ ∀ c ∈ g, isDig c = true := by
  rw [wsDig] at h
  split at h
  · exact absurd h (by simp)
  · rename_i a b0 heq
    have hg := takeWhile1_some h
    exact ⟨hg.1, hg.2.1⟩

lemma wsDig_digitRuns {cs g r : List Char} (h : wsDig cs = some (g, r)) :
    ∀ b, digitRunsAux b cs = 1 + digitRunsAux true r := by
  rw [wsDig] at h
  split at h
  · exact absurd h (by simp)
  · rename_i a b0 heq
    obtain ⟨hwne, hwall, hcs⟩ := takeWhile1_some heq
    obtain ⟨hgne, hgall, hb0⟩ := takeWhile1_some h
    intro b
    rw [hcs, hb0, digitRunsAux_ws_run _ a hwall hwne b,
      (digitRunsAux_dig_run r g hgall hgne).1]

lemma matchHere_some {cs : List Char} {caps : Caps}
    (h : matchHere cs = some caps) :
    capsDigitsOk caps ∧ 6 ≤ digitRuns cs := by
  rw [matchHere] at h
  split at h
  · exact absurd h (by simp)
  · rename_i a0 r0 heq0
    split at h
    · exact absurd h (by simp)
    · rename_i g1 r1 heq1
      split at h
      · exact absurd h (by simp)
      · rename_i g2 r2 heq2
        split at h
        · exact absurd h (by simp)
        · rename_i g3 r3 heq3
          split at h
          · exact absurd h (by simp)
          · rename_i g4 r4 heq4
            split at h
            · exact absurd h (by simp)
            · rename_i g5 r5 heq5
              obtain rfl : Caps.mk g1 g2 g3 g4 g5 = caps := Option.some.inj h
              refine ⟨⟨wsDig_some heq1, wsDig_some heq2, wsDig_some heq3,
                wsDig_some heq4, wsDig_some heq5⟩, ?_⟩
              have c0 := wsDig_digitRuns heq0 false
              have c1 := wsDig_digitRuns heq1 true
              have c2 := wsDig_digitRuns heq2 true
              have c3 := wsDig_digitRuns heq3 true
              have c4 := wsDig_digitRuns heq4 true
              have c5 := wsDig_digitRuns heq5 true
              rw [digitRuns]
              omega

lemma digitRunsAux_le (cs : List Char) :
    digitRunsAux true cs ≤ digitRunsAux false cs ∧
    digitRunsAux false cs ≤ 1 + digitRunsAux true cs := by
  cases cs with
  | nil => simp [digitRunsAux]
  | cons c cs =>
    by_cases hc : isDig c = true
    · simp [digitRunsAux, hc]
    · simp only [Bool.not_eq_true] at hc
      simp [digitRunsAux, hc]

lemma digitRuns_tail_le (c : Char) (cs : List Char) :
    digitRuns cs ≤ digitRuns (c :: cs) := by
  rw [digitRuns, digitRuns]
  by_cases hc : isDig c = true
  · simp [digitRunsAux, hc]
    have := digitRunsAux_le cs
    omega
  · simp only [Bool.not_eq_true] at hc
    simp [digitRunsAux, hc]

lemma search_some : ∀ (cs : List Char) {caps : Caps}, search cs = some caps →
    capsDigitsOk caps ∧ 6 ≤ digitRuns cs
  | [], caps, h => by simp [search] at h
  | c :: rest, caps, h => by
    rw [search] at h
    cases hm : matchHere (c :: rest) with
    | some r =>
      rw [hm, Option.or_some] at h
      obtain rfl := Option.some.inj h
      exact matchHere_some hm
    | none =>
      rw [hm, Option.none_or] at h
      have ih := search_some rest h
      exact ⟨ih.1, le_trans ih.2 (digitRuns_tail_le c rest)⟩

/-- The regex guarantees its captures are nonempty digit strings, so the
`.unwrap()` on each `parse::<f64>()` can never panic. -/
lemma extract_no_panic (line : String) : extract line ≠ .panic := by
  rw [extract]
  cases hs : search line.toList with
  | none => simp [hs]
  | some caps =>
    obtain ⟨⟨h1, h2, h3, h4, h5⟩, -⟩ := search_some _ hs
    simp only [hs, parseNum_digits h1.1 h1.2, parseNum_digits h2.1 h2.2,
      parseNum_digits h3.1 h3.2, parseNum_digits h4.1 h4.2,
      parseNum_digits h5.1 h5.2]
    simp

/-- A line with fewer than six maximal digit runs can never match. -/
lemma extract_of_digitRuns_lt {line : String} (h : digitRuns line.toList < 6) :
    extract line = .noMatch := by
  rw [extract]
  cases hs : search line.toList with
  | none => simp [hs]
  | some caps => exact absurd (search_some _ hs).2 (by omega)

end BeeGfs

namespace BeeGfs

/-! ### Sink bookkeeping through the stream -/

lemma processLine_eq (st : SinkState) (l : String) :
    processLine st l = match extractSample l with
      | some s => (applySample st s, [s])
      | none => (st, []) := by
  rw [processLine, extractSample]
  cases extract l <;> rfl

lemma processLines_emitted : ∀ (st : SinkState) (lines : List String),
    (processLines st lines).2 = lines.filterMap extractSample
  | _, [] => by simp [processLines]
  | st, l :: ls => by
    simp only [processLines]
    rw [processLine_eq]
    cases h : extractSample l with
    | none => simp [h, processLines_emitted st ls]
    | some s => simp [h, processLines_emitted (applySample st s) ls]

lemma applySample_write (st : SinkState) (s : Sample) :
    (applySample st s).write_kib = st.write_kib + s.write := rfl

lemma applySample_read (st : SinkState) (s : Sample) :
    (applySample st s).read_kib = st.read_kib + s.read := rfl

lemma applySample_reqs (st : SinkState) (s : Sample) :
    (applySample st s).requests = st.requests + s.reqs := rfl

lemma applySample_qlen (st : SinkState) (s : Sample) :
    (applySample st s).queue_len = s.qlen := rfl

lemma applySample_busy (st : SinkState) (s : Sample) :
    (applySample st s).busy = s.busy := rfl

lemma processLines_counters : ∀ (st : SinkState) (lines : List String),
    (processLines st lines).1.write_kib =
      st.write_kib + ((processLines st lines).2.map Sample.write).sum ∧
    (processLines st lines).1.read_kib =
      st.read_kib + ((processLines st lines).2.map Sample.read).sum ∧
    (processLines st lines).1.requests =
      st.requests + ((processLines st lines).2.map Sample.reqs).sum
  | _, [] => by simp [processLines]
  | st, l :: ls => by
    simp only [processLines]
    rw [processLine_eq]
    cases h : extractSample l with
    | none =>
      have ih := processLines_counters st ls
      simp only [h]
      simpa using ih
    | some s =>
      obtain ⟨i1, i2, i3⟩ := processLines_counters (applySample st s) ls
      simp only [h, List.singleton_append, List.map_cons, List.sum_cons,
        i1, i2, i3, applySample_write, applySample_read, applySample_reqs]
      refine ⟨by omega, by omega, by omega⟩

lemma getLast?_cons {α : Type} (s : α) (r : List α) :
    (s :: r).getLast? = match r.getLast? with
      | some x => some x
      | none => some s := by
  cases r with
  | nil => rfl
  | cons y t =>
    rw [List.getLast?_cons_cons]
    cases h : (y :: t).getLast? with
    | some x => rfl
    | none => simp at h

lemma processLines_gauges : ∀ (st : SinkState) (lines : List String),
    (processLines st lines).1.queue_len =
      (match (processLines st lines).2.getLast? with
       | some s => s.qlen
       | none => st.queue_len) ∧
    (processLines st lines).1.busy =
      (match (processLines st lines).2.getLast? with
       | some s => s.busy
       | none => st.busy)
  | _, [] => by simp [processLines]
  | st, l :: ls => by
    simp only [processLines]
    rw [processLine_eq]
    cases h : extractSample l with
    | none =>
      have ih := processLines_gauges st ls
      simp only [h]
      simpa using ih
    | some s =>
      have ih := processLines_gauges (applySample st s) ls
      simp only [h, List.singleton_append]
      rw [getLast?_cons]
      cases hr : (processLines (applySample st s) ls).2.getLast? with
      | some x =>
        rw [hr] at ih
        simpa using ih
      | none =>
        rw [hr] at ih
        simpa [applySample_qlen, applySample_busy] using ih

lemma length_filterMap_extractSample (lines : List String) :
    (lines.filterMap extractSample).length =
      lines.countP (fun l => (extractSample l).isSome) := by
  induction lines with
  | nil => rfl
  | cons l ls ih =>
    rw [List.filterMap_cons, List.countP_cons]
    cases h : extractSample l <;> simp [h, ih]

lemma processEvents_result : ∀ (st : SinkState) (evs : List ReadEvent),
    (processEvents st evs).result = Except.ok ()
  | _, [] => rfl
  | st, .ok l :: rest => by
    simp only [processEvents]
    exact processEvents_result (processLine st l).1 rest
  | _, .err _ :: _ => rfl

lemma processEvents_all_ok : ∀ (lines : List String) (st : SinkState),
    processEvents st (lines.map ReadEvent.ok) =
      ⟨(processLines st lines).1, (processLines st lines).2, [],
       Except.ok ()⟩
  | [], st => by simp [processEvents, processLines]
  | l :: ls, st => by
    simp only [List.map_cons, processEvents, processLines]
    rw [processEvents_all_ok ls (processLine st l).1]

lemma processEvents_err_break :
    ∀ (lines : List String) (st : SinkState) (e : String)
      (post : List ReadEvent),
    processEvents st (lines.map ReadEvent.ok ++ ReadEvent.err e :: post) =
      ⟨(processLines st lines).1, (processLines st lines).2,
       ["Error reading line: " ++ e], Except.ok ()⟩
  | [], st, e, post => by simp [processEvents, processLines]
  | l :: ls, st, e, post => by
    simp only [List.map_cons, List.cons_append, processEvents, processLines,
      List.append_eq]
    rw [processEvents_err_break ls (processLine st l).1 e post]

end BeeGfs

namespace BeeGfs

/-! ### Supervision loop -/

lemma start_monitoring_config_missing (p : String) (isFile : String → Bool)
    (h : isFile p = false) (spawn : List String → Except String ChildRun) :
    start_monitoring (some p) isFile spawn =
      .error (.configFileNotFound p) := by
  simp [start_monitoring, h]

lemma runIter_errorCount (cfg : Option String) (isFile : String → Bool)
    (limit : Int) (st : RunState)
    (spawn : List String → Except String ChildRun) :
    (runIter cfg isFile limit st spawn).1.errorCount = st.errorCount + 1 := by
  rw [runIter]
  cases h : start_monitoring cfg isFile spawn <;>
    · simp only [h]
      split <;> rfl

lemma runIter_failed_iff (cfg : Option String) (isFile : String → Bool)
    (limit : Int) (st : RunState)
    (spawn : List String → Except String ChildRun) :
    (runIter cfg isFile limit st spawn).2.2 =
      if limit < st.errorCount + 1 then some (Failure.restartCeiling limit)
      else none := by
  rw [runIter]
  cases h : start_monitoring cfg isFile spawn <;>
    · simp only [h, gt_iff_lt]
      split <;> rfl

lemma runIter_childPid_ok (cfg : Option String) (isFile : String → Bool)
    (limit : Int) (st : RunState)
    (spawn : List String → Except String ChildRun) (c : ChildRun)
    (h : start_monitoring cfg isFile spawn = .ok c) :
    (runIter cfg isFile limit st spawn).1.childPid = some c.pid := by
  rw [runIter]
  simp only [h]
  split <;> rfl

lemma runIter_childPid_err (cfg : Option String) (isFile : String → Bool)
    (limit : Int) (st : RunState)
    (spawn : List String → Except String ChildRun) (e : SpawnError)
    (h : start_monitoring cfg isFile spawn = .error e) :
    (runIter cfg isFile limit st spawn).1.childPid = st.childPid := by
  rw [runIter]
  simp only [h]
  split <;> rfl

lemma runIter_sink_ok (cfg : Option String) (isFile : String → Bool)
    (limit : Int) (st : RunState)
    (spawn : List String → Except String ChildRun) (c : ChildRun)
    (h : start_monitoring cfg isFile spawn = .ok c) :
    (runIter cfg isFile limit st spawn).1.sink =
      (processEvents st.sink c.events).sink := by
  rw [runIter]
  simp only [h]
  split <;> rfl

lemma runIter_wait_mem (cfg : Option String) (isFile : String → Bool)
    (limit : Int) (st : RunState)
    (spawn : List String → Except String ChildRun) (c : ChildRun)
    (h : start_monitoring cfg isFile spawn = .ok c) :
    Action.waitChild ∈ (runIter cfg isFile limit st spawn).2.1 := by
  rw [runIter]
  simp only [h]
  split <;> simp

end BeeGfs

namespace BeeGfs

lemma runLoop_no_fail (cfg : Option String) (isFile : String → Bool)
    (limit : Int) :
    ∀ (spawns : List (List String → Except String ChildRun)) (st : RunState),
      st.errorCount + spawns.length ≤ limit →
      (runLoop cfg isFile limit st spawns).2 = none ∧
      (runLoop cfg isFile limit st spawns).1.errorCount =
        st.errorCount + spawns.length
  | [], st, _ => by simp [runLoop]
  | spawn :: rest, st, h => by
    have h1 := runIter_errorCount cfg isFile limit st spawn
    have h2 := runIter_failed_iff cfg isFile limit st spawn
    simp only [List.length_cons] at h
    have hc : ¬ (limit < st.errorCount + 1) := by omega
    rw [if_neg hc] at h2
    have ih := runLoop_no_fail cfg isFile limit rest
      (runIter cfg isFile limit st spawn).1 (by rw [h1]; omega)
    rw [runLoop]
    simp only [h2]
    refine ⟨ih.1, ?_⟩
    have hi2 := ih.2
    rw [h1] at hi2
    simp only [List.length_cons]
    push_cast at hi2 ⊢
    omega

lemma runLoop_fail (cfg : Option String) (isFile : String → Bool)
    (limit : Int) :
    ∀ (spawns : List (List String → Except String ChildRun)) (st : RunState),
      st.errorCount ≤ limit →
      limit < st.errorCount + spawns.length →
      (runLoop cfg isFile limit st spawns).2 =
        some (Failure.restartCeiling limit) ∧
      (runLoop cfg isFile limit st spawns).1.errorCount = limit + 1
  | [], st, h0, h => by
    exfalso
    simp at h
    omega
  | spawn :: rest, st, h0, h => by
    have h1 := runIter_errorCount cfg isFile limit st spawn
    have h2 := runIter_failed_iff cfg isFile limit st spawn
    simp only [List.length_cons] at h
    rw [runLoop]
    by_cases hc : limit < st.errorCount + 1
    · rw [if_pos hc] at h2
      simp only [h2]
      refine ⟨by trivial, ?_⟩
      rw [h1]
      omega
    · rw [if_neg hc] at h2
      simp only [h2]
      exact runLoop_fail cfg isFile limit rest
        (runIter cfg isFile limit st spawn).1
        (by rw [h1]; omega) (by rw [h1]; omega)

lemma runIter_childPid_isSome (cfg : Option String) (isFile : String → Bool)
    (limit : Int) (st : RunState)
    (spawn : List String → Except String ChildRun)
    (h : st.childPid.isSome = true) :
    ((runIter cfg isFile limit st spawn).1.childPid).isSome = true := by
  cases hs : start_monitoring cfg isFile spawn with
  | ok c => rw [runIter_childPid_ok cfg isFile limit st spawn c hs]; rfl
  | error e => rw [runIter_childPid_err cfg isFile limit st spawn e hs]; exact h

lemma lastSpawnPid_acc (cfg : Option String) (isFile : String → Bool) :
    ∀ (spawns : List (List String → Except String ChildRun))
      (acc : Option Nat),
      lastSpawnPid cfg isFile spawns acc =
        (match lastSpawnPid cfg isFile spawns none with
         | some p => some p
         | none => acc)
  | [], acc => by simp [lastSpawnPid]
  | spawn :: rest, acc => by
    rw [lastSpawnPid, lastSpawnPid]
    cases hs : start_monitoring cfg isFile spawn with
    | ok c =>
      simp only [hs]
      rw [lastSpawnPid_acc cfg isFile rest (some c.pid)]
      cases lastSpawnPid cfg isFile rest none <;> rfl
    | error e =>
      simp only [hs]
      exact lastSpawnPid_acc cfg isFile rest acc

lemma runLoop_childPid (cfg : Option String) (isFile : String → Bool)
    (limit : Int) :
    ∀ (spawns : List (List String → Except String ChildRun)) (st : RunState),
      (runLoop cfg isFile limit st spawns).2 = none →
      (runLoop cfg isFile limit st spawns).1.childPid =
        (match lastSpawnPid cfg isFile spawns none with
         | some p => some p
         | none => st.childPid)
  | [], st, _ => by simp [runLoop, lastSpawnPid]
  | spawn :: rest, st, h => by
    rw [runLoop] at h ⊢
    by_cases hf : (runIter cfg isFile limit st spawn).2.2 = none
    · simp only [hf] at h ⊢
      have ih := runLoop_childPid cfg isFile limit rest
        (runIter cfg isFile limit st spawn).1 h
      rw [ih, lastSpawnPid]
      cases hs : start_monitoring cfg isFile spawn with
      | ok c =>
        simp only [hs]
        rw [runIter_childPid_ok cfg isFile limit st spawn c hs,
          lastSpawnPid_acc cfg isFile rest (some c.pid)]
        cases lastSpawnPid cfg isFile rest none <;> rfl
      | error e =>
        simp only [hs]
        rw [runIter_childPid_err cfg isFile limit st spawn e hs]
    · exfalso
      cases hv : (runIter cfg isFile limit st spawn).2.2 with
      | none => exact hf hv
      | some f =>
        rw [hv] at h
        simp at h

end BeeGfs

namespace BeeGfs

lemma runIter_sink_err (cfg : Option String) (isFile : String → Bool)
    (limit : Int) (st : RunState)
    (spawn : List String → Except String ChildRun) (e : SpawnError)
    (h : start_monitoring cfg isFile spawn = .error e) :
    (runIter cfg isFile limit st spawn).1.sink = st.sink := by
  rw [runIter]
  simp only [h]
  split <;> rfl

/-! ### The claims -/

/-- C1: each child-process termination event (spawn failure, or a streamed
run whether it ends cleanly or in a read error) increments `error_count` by
exactly 1; an iteration returns the restart-ceiling failure exactly when the
incremented counter exceeds the configured limit; from a fresh start the loop
survives `n ≤ limit` events with counter `n` and fails carrying the limit the
first time the counter reaches `limit + 1`; with ceiling 0 it fails after the
very first crash, with ceiling 3 after the fourth. -/
theorem crash_counter_and_ceiling :
    (∀ (cfg : Option String) (isFile : String → Bool) (limit : Int)
       (st : RunState) (spawn : List String → Except String ChildRun),
       (runIter cfg isFile limit st spawn).1.errorCount =
         st.errorCount + 1) ∧
    (∀ (cfg : Option String) (isFile : String → Bool) (limit : Int)
       (st : RunState) (spawn : List String → Except String ChildRun),
       ((runIter cfg isFile limit st spawn).2.2).isSome ↔
         limit < st.errorCount + 1) ∧
    (∀ (cfg : Option String) (isFile : String → Bool) (limitN : Nat)
       (spawns : List (List String → Except String ChildRun)),
       (spawns.length ≤ limitN →
         (runLoop cfg isFile limitN initState spawns).2 = none ∧
         (runLoop cfg isFile limitN initState spawns).1.errorCount =
           spawns.length) ∧
       (limitN < spawns.length →
         (runLoop cfg isFile limitN initState spawns).2 =
           some (.restartCeiling limitN) ∧
         (runLoop cfg isFile limitN initState spawns).1.errorCount =
           (limitN : Int) + 1)) ∧
    (∀ (cfg : Option String) (isFile : String → Bool)
       (spawns : List (List String → Except String ChildRun)),
       spawns ≠ [] →
       (runLoop cfg isFile 0 initState spawns).2 =
         some (.restartCeiling 0) ∧
       (runLoop cfg isFile 0 initState spawns).1.errorCount = 1) ∧
    (∀ (cfg : Option String) (isFile : String → Bool)
       (spawns : List (List String → Except String ChildRun)),
       4 ≤ spawns.length →
       (runLoop cfg isFile 3 initState spawns).2 =
         some (.restartCeiling 3) ∧
       (runLoop cfg isFile 3 initState spawns).1.errorCount = 4) := by
  refine ⟨runIter_errorCount, ?_, ?_, ?_, ?_⟩
  · intro cfg isFile limit st spawn
    rw [runIter_failed_iff]
    by_cases hc : limit < st.errorCount + 1 <;> simp [hc]
  · intro cfg isFile limitN spawns
    constructor
    · intro h
      have := runLoop_no_fail cfg isFile limitN spawns initState
        (by simp only [initState]; omega)
      simpa [initState] using this
    · intro h
      have := runLoop_fail cfg isFile limitN spawns initState
        (by simp only [initState]; omega) (by simp only [initState]; omega)
      simpa [initState] using this
  · intro cfg isFile spawns h
    have hlen : 0 < spawns.length := List.length_pos.mpr h
    have := runLoop_fail cfg isFile 0 spawns initState
      (by simp only [initState]; omega) (by simp only [initState]; omega)
    simpa [initState] using this
  · intro cfg isFile spawns h
    have := runLoop_fail cfg isFile 3 spawns initState
      (by simp only [initState]; omega) (by simp only [initState]; omega)
    simpa [initState] using this

/-- Witness for C1, at ceiling 0 and one spawn-failure event. -/
theorem crash_counter_and_ceiling_witness :
    (runLoop none (fun _ => true) 0 initState
      [fun _ => Except.error "boom"]).2 = some (.restartCeiling 0) ∧
    (runLoop none (fun _ => true) 0 initState
      [fun _ => Except.error "boom"]).1.errorCount = 1 :=
  crash_counter_and_ceiling.2.2.2.1 none (fun _ => true)
    [fun _ => Except.error "boom"] (by simp)

end BeeGfs

namespace BeeGfs

/-- C2 counterexample: "3 100 200 5 7 42" is an (ignored) leading integer
followed by five whitespace-separated non-negative integers, yet the extractor
does not match it, because the regex demands at least one whitespace character
before the ignored integer; with one leading space the same fields match. -/
theorem extract_no_leading_ws_cex :
    intTokenCount "3 100 200 5 7 42".toList = 6 ∧
    extract "3 100 200 5 7 42" = .noMatch ∧
    extract " 3 100 200 5 7 42" = .sample ⟨100, 200, 5, 7, 42⟩ := by
  decide

/-- C2 amended: for every line of the shape whitespace, ignored integer, then
five whitespace-separated integers (with arbitrary nonempty whitespace runs
between fields and any trailing content not starting with a digit), the
extractor returns exactly the five captured integers in order.  A line that
starts directly with the ignored integer (no leading whitespace) is outside
this shape and does not match. -/
theorem extract_structured_line {s : String}
    {w0 w1 w2 w3 w4 w5 d0 d1 d2 d3 d4 d5 t : List Char}
    (hs : s.toList = w0 ++ (d0 ++ (w1 ++ (d1 ++ (w2 ++ (d2 ++ (w3 ++ (d3 ++
      (w4 ++ (d4 ++ (w5 ++ (d5 ++ t))))))))))))
    (hw0 : w0 ≠ []) (hw0a : ∀ c ∈ w0, isWs c = true)
    (hw1 : w1 ≠ []) (hw1a : ∀ c ∈ w1, isWs c = true)
    (hw2 : w2 ≠ []) (hw2a : ∀ c ∈ w2, isWs c = true)
    (hw3 : w3 ≠ []) (hw3a : ∀ c ∈ w3, isWs c = true)
    (hw4 : w4 ≠ []) (hw4a : ∀ c ∈ w4, isWs c = true)
    (hw5 : w5 ≠ []) (hw5a : ∀ c ∈ w5, isWs c = true)
    (hd0 : d0 ≠ []) (hd0a : ∀ c ∈ d0, isDig c = true)
    (hd1 : d1 ≠ []) (hd1a : ∀ c ∈ d1, isDig c = true)
    (hd2 : d2 ≠ []) (hd2a : ∀ c ∈ d2, isDig c = true)
    (hd3 : d3 ≠ []) (hd3a : ∀ c ∈ d3, isDig c = true)
    (hd4 : d4 ≠ []) (hd4a : ∀ c ∈ d4, isDig c = true)
    (hd5 : d5 ≠ []) (hd5a : ∀ c ∈ d5, isDig c = true)
    (ht : ∀ c, t.head? = some c → isDig c = false) :
    extract s = .sample ⟨digitsVal d1, digitsVal d2, digitsVal d3,
      digitsVal d4, digitsVal d5⟩ := by
  have hm := matchHere_structured hw0 hw0a hw1 hw1a hw2 hw2a hw3 hw3a hw4 hw4a
    hw5 hw5a hd0 hd0a hd1 hd1a hd2 hd2a hd3 hd3a hd4 hd4a hd5 hd5a ht
  have hne : w0 ++ (d0 ++ (w1 ++ (d1 ++ (w2 ++ (d2 ++ (w3 ++ (d3 ++
      (w4 ++ (d4 ++ (w5 ++ (d5 ++ t))))))))))) ≠ [] := by
    cases w0 with
    | nil => exact absurd rfl hw0
    | cons x xs => simp
  have hsr : search s.toList = some ⟨d1, d2, d3, d4, d5⟩ := by
    rw [hs]
    exact search_of_matchHere hne hm
  rw [extract]
  simp only [hsr, parseNum_digits hd1 hd1a, parseNum_digits hd2 hd2a,
    parseNum_digits hd3 hd3a, parseNum_digits hd4 hd4a,
    parseNum_digits hd5 hd5a]

/-- Witness for C2 amended, on " 12 100 200 5 7 42". -/
theorem extract_structured_line_witness :
    extract " 12 100 200 5 7 42" = .sample ⟨100, 200, 5, 7, 42⟩ :=
  @extract_structured_line " 12 100 200 5 7 42"
    [' '] [' '] [' '] [' '] [' '] [' ']
    ['1', '2'] ['1', '0', '0'] ['2', '0', '0'] ['5'] ['7'] ['4', '2'] []
    (by decide) (by decide) (by decide) (by decide) (by decide) (by decide)
    (by decide) (by decide) (by decide) (by decide) (by decide) (by decide)
    (by decide) (by decide) (by decide) (by decide) (by decide) (by decide)
    (by decide) (by decide) (by decide) (by decide) (by decide) (by decide)
    (by decide) (by simp)

end BeeGfs

namespace BeeGfs

/-- C3 counterexample: on the spec's end-to-end line, the code increments the
request counter by 5 (not 42) and sets the gauges to 7 and 42 (not 5 and 7):
the captures are consumed in order write, read, requests, queue, busy. -/
theorem example_line_field_order_cex :
    (processLine zeroSink "  3   100   200   5   7   42").1 =
      SinkState.mk 100 200 5 7 42 ∧
    ¬ ((processLine zeroSink "  3   100   200   5   7   42").1.requests = 42 ∧
       (processLine zeroSink "  3   100   200   5   7   42").1.queue_len = 5 ∧
       (processLine zeroSink "  3   100   200   5   7   42").1.busy = 7) := by
  decide

/-- C3 amended: an error-free streaming pass over N lines forwards exactly one
sample per matching line (M forwardings for M matches); each counter ends at
its start value plus the sum of its field over the forwarded samples; each
gauge ends at the last forwarded sample's field (unchanged if no match);
re-processing the same lines from the zero sink reproduces the same result.
The end-to-end example yields +100/+200/+5 on the counters and gauges 7 and
42; "garbage line" has no effect. -/
theorem stream_processing_totals :
    (∀ (st : SinkState) (lines : List String),
      processEvents st (lines.map ReadEvent.ok) =
        ⟨(processLines st lines).1, (processLines st lines).2, [],
         Except.ok ()⟩) ∧
    (∀ (st : SinkState) (lines : List String),
      (processLines st lines).2.length =
        lines.countP (fun l => (extractSample l).isSome)) ∧
    (∀ (st : SinkState) (lines : List String),
      (processLines st lines).1.write_kib =
        st.write_kib + ((processLines st lines).2.map Sample.write).sum ∧
      (processLines st lines).1.read_kib =
        st.read_kib + ((processLines st lines).2.map Sample.read).sum ∧
      (processLines st lines).1.requests =
        st.requests + ((processLines st lines).2.map Sample.reqs).sum) ∧
    (∀ (st : SinkState) (lines : List String),
      (processLines st lines).1.queue_len =
        (match (processLines st lines).2.getLast? with
         | some s => s.qlen
         | none => st.queue_len) ∧
      (processLines st lines).1.busy =
        (match (processLines st lines).2.getLast? with
         | some s => s.busy
         | none => st.busy)) ∧
    (∀ lines : List String,
      processLines zeroSink lines = processLines zeroSink lines) ∧
    (processLine zeroSink "  3   100   200   5   7   42" =
      (SinkState.mk 100 200 5 7 42, [Sample.mk 100 200 5 7 42])) ∧
    (processLine zeroSink "garbage line" = (zeroSink, [])) := by
  refine ⟨?_, ?_, processLines_counters, processLines_gauges, fun _ => rfl,
    by decide, by decide⟩
  · intro st lines
    exact processEvents_all_ok lines st
  · intro st lines
    rw [processLines_emitted]
    exact length_filterMap_extractSample lines

/-- C4 counterexample: " 1 2 3 4 5 6a" has only five whitespace-separated
integer tokens (the sixth token is "6a"), yet the extractor matches it,
capturing 2,3,4,5,6, and the sink state changes. -/
theorem nonmatching_classes_cex :
    intTokenCount " 1 2 3 4 5 6a".toList = 5 ∧
    extract " 1 2 3 4 5 6a" = .sample ⟨2, 3, 4, 5, 6⟩ ∧
    processLine zeroSink " 1 2 3 4 5 6a" ≠ (zeroSink, []) := by
  decide

/-- C4 amended: every line the regex does not match leaves all five sink
metrics unchanged and forwards nothing; every line with fewer than six
maximal digit runs (in particular the empty line and digit-free header text)
never matches.  "Fewer than six whitespace-separated integers" alone does not
guarantee a non-match (see the counterexample). -/
theorem nonmatching_lines_no_effects :
    (∀ (st : SinkState) (line : String), extract line = .noMatch →
      processLine st line = (st, [])) ∧
    (∀ line : String, digitRuns line.toList < 6 → extract line = .noMatch) ∧
    (extract "" = .noMatch) ∧
    (extract "garbage line" = .noMatch) := by
  refine ⟨?_, ?_, by decide, by decide⟩
  · intro st line h
    rw [processLine, h]
  · intro line h
    exact extract_of_digitRuns_lt h

/-- Witness for C4 amended, on a header-like line and the empty line. -/
theorem nonmatching_lines_no_effects_witness :
    processLine zeroSink "storage benchmark status:" = (zeroSink, []) ∧
    extract "   1 22 333" = .noMatch :=
  ⟨nonmatching_lines_no_effects.1 zeroSink "storage benchmark status:"
      (by decide),
   nonmatching_lines_no_effects.2.1 "   1 22 333" (by decide)⟩

/-- C5 counterexample: the written-bytes counter is registered under the
misspelled name "beegfs__writen_bytes", so no registered metric matches the
glob `*_written_bytes`. -/
theorem metric_name_writen_cex :
    metricRegistrations.map MetricReg.name =
      ["beegfs__writen_bytes", "beegfs__read_bytes", "beegfs__request_total",
       "beegfs__queue_len", "beegfs__busy_pct"] ∧
    matchesSuffix "beegfs__writen_bytes" "_written_bytes" = false ∧
    (metricRegistrations.filter
      (fun m => matchesSuffix m.name "_written_bytes")).length = 0 := by
  decide

/-- C5 amended: five metrics are registered at startup, in order three
counters and two gauges, whose names match `*_writen_bytes` (sic — missing a
"t"), `*_read_bytes`, `*_request_total`, `*_queue_len`, `*_busy_pct`. -/
theorem metric_names_registered :
    metricRegistrations.map MetricReg.kind =
      [.counter, .counter, .counter, .gauge, .gauge] ∧
    metricRegistrations.length = 5 ∧
    ((metricRegistrations.map MetricReg.name).zip
      ["_writen_bytes", "_read_bytes", "_request_total", "_queue_len",
       "_busy_pct"]).all (fun p => matchesSuffix p.1 p.2) = true := by
  decide

end BeeGfs

namespace BeeGfs

/-- C6: with a configured config path that is not a file, every spawn attempt
returns the config-file-not-found error without consulting the spawn
primitive (the result is the same for every spawn oracle); each such failure
increments the crash counter like any other crash while leaving the child pid
and the sink untouched; from a fresh start the loop exhausts any ceiling
smaller than the number of attempts. -/
theorem config_missing_consumes_ceiling :
    (∀ (p : String) (isFile : String → Bool)
       (spawn spawn2 : List String → Except String ChildRun),
       isFile p = false →
       start_monitoring (some p) isFile spawn =
         .error (.configFileNotFound p) ∧
       start_monitoring (some p) isFile spawn =
         start_monitoring (some p) isFile spawn2) ∧
    (∀ (p : String) (isFile : String → Bool) (limit : Int) (st : RunState)
       (spawn : List String → Except String ChildRun),
       isFile p = false →
       (runIter (some p) isFile limit st spawn).1.errorCount =
         st.errorCount + 1 ∧
       (runIter (some p) isFile limit st spawn).1.childPid = st.childPid ∧
       (runIter (some p) isFile limit st spawn).1.sink = st.sink) ∧
    (∀ (p : String) (isFile : String → Bool) (limitN : Nat)
       (spawns : List (List String → Except String ChildRun)),
       isFile p = false → limitN < spawns.length →
       (runLoop (some p) isFile limitN initState spawns).2 =
         some (.restartCeiling limitN)) := by
  refine ⟨?_, ?_, ?_⟩
  · intro p isFile spawn spawn2 h
    rw [start_monitoring_config_missing p isFile h spawn,
      start_monitoring_config_missing p isFile h spawn2]
    exact ⟨rfl, rfl⟩
  · intro p isFile limit st spawn h
    have hs := start_monitoring_config_missing p isFile h spawn
    exact ⟨runIter_errorCount (some p) isFile limit st spawn,
      runIter_childPid_err (some p) isFile limit st spawn _ hs,
      runIter_sink_err (some p) isFile limit st spawn _ hs⟩
  · intro p isFile limitN spawns h hlen
    have := runLoop_fail (some p) isFile limitN spawns initState
      (by simp only [initState]; omega) (by simp only [initState]; omega)
    exact this.1

/-- Witness for C6 at a one-attempt run with ceiling 0. -/
theorem config_missing_consumes_ceiling_witness :
    start_monitoring (some "beegfs-client.conf") (fun _ => false)
      (fun _ => Except.ok (ChildRun.mk 1 [])) =
      .error (.configFileNotFound "beegfs-client.conf") ∧
    (runLoop (some "beegfs-client.conf") (fun _ => false) 0 initState
      [fun _ => Except.ok (ChildRun.mk 1 [])]).2 =
      some (.restartCeiling 0) :=
  ⟨(config_missing_consumes_ceiling.1 "beegfs-client.conf" (fun _ => false)
      (fun _ => Except.ok (ChildRun.mk 1 []))
      (fun _ => Except.ok (ChildRun.mk 1 [])) rfl).1,
   config_missing_consumes_ceiling.2.2 "beegfs-client.conf" (fun _ => false)
      0 [fun _ => Except.ok (ChildRun.mk 1 [])] rfl (by decide)⟩

/-- C7: an I/O read error is logged to stderr with the "Error reading line"
message and halts streaming — events after it are never processed — while
`process_events` still returns Ok (the read error is never surfaced to its
caller, which is why the caller's stream-failure log is unreachable); the
iteration still reaps the child (`waitChild`) and increments the crash
counter exactly like any other iteration. -/
theorem stream_read_error_contained :
    (∀ (st : SinkState) (lines : List String) (e : String)
       (post : List ReadEvent),
       processEvents st (lines.map ReadEvent.ok ++ ReadEvent.err e :: post) =
         ⟨(processLines st lines).1, (processLines st lines).2,
          ["Error reading line: " ++ e], Except.ok ()⟩) ∧
    (∀ (st : SinkState) (evs : List ReadEvent),
       (processEvents st evs).result = Except.ok ()) ∧
    (∀ (cfg : Option String) (isFile : String → Bool) (limit : Int)
       (st : RunState) (spawn : List String → Except String ChildRun)
       (c : ChildRun),
       start_monitoring cfg isFile spawn = .ok c →
       Action.waitChild ∈ (runIter cfg isFile limit st spawn).2.1 ∧
       (runIter cfg isFile limit st spawn).1.errorCount =
         st.errorCount + 1) := by
  refine ⟨?_, processEvents_result, ?_⟩
  · intro st lines e post
    exact processEvents_err_break lines st e post
  · intro cfg isFile limit st spawn c h
    exact ⟨runIter_wait_mem cfg isFile limit st spawn c h,
      runIter_errorCount cfg isFile limit st spawn⟩

/-- Witness for C7: a child whose stream errors immediately is still reaped
and accounted. -/
theorem stream_read_error_contained_witness :
    Action.waitChild ∈
      (runIter none (fun _ => true) 10 initState
        (fun _ => Except.ok (ChildRun.mk 7 [ReadEvent.err "io"]))).2.1 ∧
    (runIter none (fun _ => true) 10 initState
      (fun _ => Except.ok (ChildRun.mk 7 [ReadEvent.err "io"]))).1.errorCount =
      initState.errorCount + 1 :=
  stream_read_error_contained.2.2 none (fun _ => true) 10 initState
    (fun _ => Except.ok (ChildRun.mk 7 [ReadEvent.err "io"]))
    (ChildRun.mk 7 [ReadEvent.err "io"]) rfl

/-- C8: every capture group of a successful regex search is a nonempty
digit-only string, so every numeric parse succeeds, and the panicking
parse-failure branch of the extractor is unreachable on all inputs. -/
theorem captures_digits_no_panic :
    (∀ (cs : List Char) (caps : Caps), search cs = some caps →
       capsDigitsOk caps ∧
       parseNum caps.g1 = some (digitsVal caps.g1) ∧
       parseNum caps.g2 = some (digitsVal caps.g2) ∧
       parseNum caps.g3 = some (digitsVal caps.g3) ∧
       parseNum caps.g4 = some (digitsVal caps.g4) ∧
       parseNum caps.g5 = some (digitsVal caps.g5)) ∧
    (∀ line : String, extract line ≠ .panic) := by
  refine ⟨?_, extract_no_panic⟩
  intro cs caps h
  obtain ⟨⟨h1, h2, h3, h4, h5⟩, -⟩ := search_some cs h
  exact ⟨⟨h1, h2, h3, h4, h5⟩, parseNum_digits h1.1 h1.2,
    parseNum_digits h2.1 h2.2, parseNum_digits h3.1 h3.2,
    parseNum_digits h4.1 h4.2, parseNum_digits h5.1 h5.2⟩

/-- Witness for C8 on the end-to-end example line's captures. -/
theorem captures_digits_no_panic_witness :
    capsDigitsOk ⟨['1', '0', '0'], ['2', '0', '0'], ['5'], ['7'],
      ['4', '2']⟩ ∧
    parseNum ['1', '0', '0'] = some 100 ∧
    parseNum ['2', '0', '0'] = some 200 ∧
    parseNum ['5'] = some 5 ∧
    parseNum ['7'] = some 7 ∧
    parseNum ['4', '2'] = some 42 :=
  captures_digits_no_panic.1 "  3   100   200   5   7   42".toList
    ⟨['1', '0', '0'], ['2', '0', '0'], ['5'], ['7'], ['4', '2']⟩ (by decide)

end BeeGfs

namespace BeeGfs

/-- C9: when the ctrl-c handler finds a tracked child pid it prints, sends
SIGTERM to that pid and exits the whole program with status 1 (non-zero);
with no tracked child it sends no signal and performs no program exit. -/
theorem interrupt_handler_spec :
    (∀ pid : Nat, ctrlcHandler (some pid) =
      [.printMsg "Crtl + C killing subprocess", .sigterm pid,
       .exitProgram 1]) ∧
    (∀ (pid code : Nat),
      HandlerAction.exitProgram code ∈ ctrlcHandler (some pid) →
      code ≠ 0) ∧
    (ctrlcHandler none = [.printMsg "Crtl + C killing subprocess"]) ∧
    (∀ pid : Nat, HandlerAction.sigterm pid ∉ ctrlcHandler none) ∧
    (∀ code : Nat, HandlerAction.exitProgram code ∉ ctrlcHandler none) := by
  refine ⟨fun _ => rfl, ?_, rfl, ?_, ?_⟩
  · intro pid code h
    simp [ctrlcHandler] at h
    omega
  · intro pid
    simp [ctrlcHandler]
  · intro code
    simp [ctrlcHandler]

/-- Witness for C9 at pid 5. -/
theorem interrupt_handler_spec_witness :
    ctrlcHandler (some 5) =
      [.printMsg "Crtl + C killing subprocess", .sigterm 5,
       .exitProgram 1] ∧
    (1 : Nat) ≠ 0 :=
  ⟨interrupt_handler_spec.1 5, interrupt_handler_spec.2.1 5 1 (by decide)⟩

/-- C10: the shared child pid starts as None; every successful spawn
overwrites it with the new child's pid; a failed spawn leaves it unchanged;
no iteration ever resets it to None; over a whole run that does not hit the
ceiling it ends as the pid of the most recent successful spawn (or its
starting value if none succeeded); and an interrupt arriving when a pid is
tracked SIGTERMs exactly that pid, whether or not that child still runs. -/
theorem child_pid_tracking :
    initState.childPid = none ∧
    (∀ (cfg : Option String) (isFile : String → Bool) (limit : Int)
       (st : RunState) (spawn : List String → Except String ChildRun)
       (c : ChildRun),
       start_monitoring cfg isFile spawn = .ok c →
       (runIter cfg isFile limit st spawn).1.childPid = some c.pid) ∧
    (∀ (cfg : Option String) (isFile : String → Bool) (limit : Int)
       (st : RunState) (spawn : List String → Except String ChildRun)
       (e : SpawnError),
       start_monitoring cfg isFile spawn = .error e →
       (runIter cfg isFile limit st spawn).1.childPid = st.childPid) ∧
    (∀ (cfg : Option String) (isFile : String → Bool) (limit : Int)
       (st : RunState) (spawn : List String → Except String ChildRun),
       st.childPid.isSome = true →
       ((runIter cfg isFile limit st spawn).1.childPid).isSome = true) ∧
    (∀ (cfg : Option String) (isFile : String → Bool) (limit : Int)
       (spawns : List (List String → Except String ChildRun))
       (st : RunState),
       (runLoop cfg isFile limit st spawns).2 = none →
       (runLoop cfg isFile limit st spawns).1.childPid =
         (match lastSpawnPid cfg isFile spawns none with
          | some p => some p
          | none => st.childPid)) ∧
    (∀ pid : Nat, HandlerAction.sigterm pid ∈ ctrlcHandler (some pid)) := by
  refine ⟨rfl, runIter_childPid_ok, runIter_childPid_err,
    runIter_childPid_isSome, ?_, ?_⟩
  · intro cfg isFile limit spawns st h
    exact runLoop_childPid cfg isFile limit spawns st h
  · intro pid
    simp [ctrlcHandler]

/-- Witness for C10: one successful spawn records pid 42, and an interrupt
would SIGTERM 42. -/
theorem child_pid_tracking_witness :
    (runIter none (fun _ => true) 10 initState
      (fun _ => Except.ok (ChildRun.mk 42 []))).1.childPid = some 42 ∧
    (runLoop none (fun _ => true) 10 initState
      [fun _ => Except.ok (ChildRun.mk 42 [])]).1.childPid = some 42 :=
  ⟨child_pid_tracking.2.1 none (fun _ => true) 10 initState
      (fun _ => Except.ok (ChildRun.mk 42 [])) (ChildRun.mk 42 []) rfl,
   by
    have := child_pid_tracking.2.2.2.2.1 none (fun _ => true) 10
      [fun _ => Except.ok (ChildRun.mk 42 [])] initState (by decide)
    simpa [lastSpawnPid, start_monitoring, baseArgs] using this⟩

end BeeGfs
